import Mathlib

/-!
Verification of the morphological geodesic active contour (GAC) engine of
`src/src/modules/morphological_geodesic_active_contour.py`.

Shallow embedding conventions:
* A 3-D array of shape `(nx, ny, nz)` is a function `ℕ × ℕ × ℕ → α` together
  with an ambient `Shape`; only indices inside `gridFinset s` are meaningful.
* Array data loaded from disk (images, masks) is embedded with exact rational
  values (`ℚ`); the internal level-set arithmetic (square roots, exponentials,
  divisions) is embedded over the exact reals (`ℝ`).
* `scipy.ndimage.distance_transform_edt` on a boolean array gives, at each
  foreground voxel, the Euclidean distance to the nearest background voxel
  (and 0 at background voxels); the corresponding discrete "distance to the
  zero level set" of a sign pattern is the distance to the nearest voxel of
  the opposite sign.
-/

/-- A voxel index `(x, y, z)`. -/
abbrev Ix : Type := ℕ × ℕ × ℕ

/-- An array shape `(nx, ny, nz)`. -/
abbrev Shape : Type := ℕ × ℕ × ℕ

/-- Real-valued voxel field (the level-set function φ, edge field g, …). -/
abbrev RVol : Type := Ix → ℝ

/-- Rational-valued voxel field: array data as loaded from disk. -/
abbrev QVol : Type := Ix → ℚ

/-- The set of in-bounds voxel indices of an array of shape `s`. -/
def gridFinset (s : Shape) : Finset Ix :=
  Finset.range s.1 ×ˢ Finset.range s.2.1 ×ˢ Finset.range s.2.2

/-- Squared Euclidean distance between two voxel indices. -/
def sqDist (v w : Ix) : ℕ :=
  ((v.1 : ℤ) - w.1).natAbs ^ 2 + ((v.2.1 : ℤ) - w.2.1).natAbs ^ 2 +
    ((v.2.2 : ℤ) - w.2.2).natAbs ^ 2

/-- Minimal squared Euclidean distance from `v` to the voxels of the grid
satisfying `A` (junk value 0 when no grid voxel satisfies `A`; the claims
that depend on this case carry explicit non-emptiness hypotheses). -/
def minSqDistToSet (s : Shape) (A : Ix → Prop) [DecidablePred A] (v : Ix) : ℕ :=
  (((gridFinset s).filter A).image (sqDist v)).min.untop' 0

/-- `scipy.ndimage.distance_transform_edt` on the boolean array `A`:
0 at background voxels (`¬ A v`), and at foreground voxels the Euclidean
distance to the nearest background voxel. -/
noncomputable def distance_transform_edt (s : Shape) (A : Ix → Prop) [DecidablePred A]
    (v : Ix) : ℝ :=
  if A v then Real.sqrt (minSqDistToSet s (fun w => ¬ A w) v) else 0

/-- `phi = distance_transform_edt(phi < 0) - distance_transform_edt(phi >= 0)`
(lines 163 and 230 of the source, the t=0 initialization and the periodic
reinitialization are this same formula). -/
noncomputable def reinitPhi (s : Shape) (phi : RVol) : RVol := fun v =>
  distance_transform_edt s (fun w => phi w < 0) v -
    distance_transform_edt s (fun w => 0 ≤ phi w) v

/-- Lines 162–163: `phi = np.where(initial_mask > 0, 1, -1)` followed by the
signed-distance initialization. -/
noncomputable def phiInitial (s : Shape) (initial_mask : QVol) : RVol :=
  reinitPhi s (fun v => if 0 < initial_mask v then (1 : ℝ) else -1)

/-- `phi` is a true signed Euclidean-distance field of its own sign pattern:
at each in-bounds voxel its sign is strict and its magnitude is the Euclidean
distance to the nearest voxel of the opposite sign (the discrete reading of
"distance to the zero level set"). -/
def isSignedEDF (s : Shape) (phi : RVol) : Prop :=
  ∀ v ∈ gridFinset s,
    (0 < phi v → phi v = Real.sqrt (minSqDistToSet s (fun w => phi w ≤ 0) v)) ∧
    (phi v < 0 → phi v = -Real.sqrt (minSqDistToSet s (fun w => 0 < phi w) v)) ∧
    phi v ≠ 0

/-- `np.gradient` along axis 0: one-sided differences at the two boundary
planes, central differences inside. (`np.gradient` raises on an axis of
length < 2; that degenerate case is embedded as 0 and is not relied on.) -/
noncomputable def npGradientX (s : Shape) (f : RVol) : RVol := fun v =>
  if s.1 ≤ 1 then 0
  else if v.1 = 0 then f (1, v.2.1, v.2.2) - f (0, v.2.1, v.2.2)
  else if v.1 = s.1 - 1 then f (v.1, v.2.1, v.2.2) - f (v.1 - 1, v.2.1, v.2.2)
  else (f (v.1 + 1, v.2.1, v.2.2) - f (v.1 - 1, v.2.1, v.2.2)) / 2

/-- `np.gradient` along axis 1. -/
noncomputable def npGradientY (s : Shape) (f : RVol) : RVol := fun v =>
  if s.2.1 ≤ 1 then 0
  else if v.2.1 = 0 then f (v.1, 1, v.2.2) - f (v.1, 0, v.2.2)
  else if v.2.1 = s.2.1 - 1 then f (v.1, v.2.1, v.2.2) - f (v.1, v.2.1 - 1, v.2.2)
  else (f (v.1, v.2.1 + 1, v.2.2) - f (v.1, v.2.1 - 1, v.2.2)) / 2

/-- `np.gradient` along axis 2. -/
noncomputable def npGradientZ (s : Shape) (f : RVol) : RVol := fun v =>
  if s.2.2 ≤ 1 then 0
  else if v.2.2 = 0 then f (v.1, v.2.1, 1) - f (v.1, v.2.1, 0)
  else if v.2.2 = s.2.2 - 1 then f (v.1, v.2.1, v.2.2) - f (v.1, v.2.1, v.2.2 - 1)
  else (f (v.1, v.2.1, v.2.2 + 1) - f (v.1, v.2.1, v.2.2 - 1)) / 2

/-- Gradient magnitude `sqrt(gx² + gy² + gz²)` (line 34 of the source). -/
noncomputable def gradMagnitude (s : Shape) (f : RVol) : RVol := fun v =>
  Real.sqrt (npGradientX s f v ^ 2 + npGradientY s f v ^ 2 + npGradientZ s f v ^ 2)

/-- The regularized gradient magnitude of φ used by the speed-field computer:
`np.sqrt(grad_x**2 + grad_y**2 + grad_z**2 + 1e-8)` (line 72 of the source),
the denominator of the normalized gradient. -/
noncomputable def gradMagnitudeEps (s : Shape) (phi : RVol) : RVol := fun v =>
  Real.sqrt (npGradientX s phi v ^ 2 + npGradientY s phi v ^ 2 +
    npGradientZ s phi v ^ 2 + 1e-8)

/-- `np.clip(a, lo, hi)` = `min(max(a, lo), hi)`. -/
noncomputable def npClip (a lo hi : ℝ) : ℝ := min (max a lo) hi

/-- scipy boundary mode `reflect` (`(d c b a | a b c d | d c b a)`): map an
out-of-range 1-D index into `[0, n)` by mirroring with edge repetition,
period `2n`. -/
def reflectIdx (n : ℕ) (i : ℤ) : ℕ :=
  if n = 0 then 0
  else
    let j := i.emod (2 * n)
    if j < (n : ℤ) then j.toNat else (2 * (n : ℤ) - 1 - j).toNat

/-- The truncated-Gaussian kernel radius of `scipy.ndimage.gaussian_filter1d`:
`int(truncate * sigma + 0.5)` with the default `truncate = 4.0`. -/
noncomputable def gaussianKernelRadius (sigma : ℝ) : ℕ := (⌊4 * sigma + 0.5⌋).toNat

/-- Unnormalized Gaussian kernel weight `exp(-x² / (2σ²))`. -/
noncomputable def gaussianWeight (sigma : ℝ) (x : ℤ) : ℝ :=
  Real.exp (-((x : ℝ) ^ 2) / (2 * sigma ^ 2))

/-- Sum of the kernel weights over the truncated window. -/
noncomputable def gaussianWeightSum (sigma : ℝ) : ℝ :=
  Finset.sum (Finset.Icc (-(gaussianKernelRadius sigma : ℤ)) (gaussianKernelRadius sigma))
    (fun x => gaussianWeight sigma x)

/-- 1-D Gaussian correlation along axis 0 with normalized truncated kernel and
`reflect` boundary handling. -/
noncomputable def gaussianCorrelateX (s : Shape) (sigma : ℝ) (f : RVol) : RVol := fun v =>
  Finset.sum (Finset.Icc (-(gaussianKernelRadius sigma : ℤ)) (gaussianKernelRadius sigma))
    (fun x => gaussianWeight sigma x / gaussianWeightSum sigma *
      f (reflectIdx s.1 ((v.1 : ℤ) + x), v.2.1, v.2.2))

/-- 1-D Gaussian correlation along axis 1. -/
noncomputable def gaussianCorrelateY (s : Shape) (sigma : ℝ) (f : RVol) : RVol := fun v =>
  Finset.sum (Finset.Icc (-(gaussianKernelRadius sigma : ℤ)) (gaussianKernelRadius sigma))
    (fun x => gaussianWeight sigma x / gaussianWeightSum sigma *
      f (v.1, reflectIdx s.2.1 ((v.2.1 : ℤ) + x), v.2.2))

/-- 1-D Gaussian correlation along axis 2. -/
noncomputable def gaussianCorrelateZ (s : Shape) (sigma : ℝ) (f : RVol) : RVol := fun v =>
  Finset.sum (Finset.Icc (-(gaussianKernelRadius sigma : ℤ)) (gaussianKernelRadius sigma))
    (fun x => gaussianWeight sigma x / gaussianWeightSum sigma *
      f (v.1, v.2.1, reflectIdx s.2.2 ((v.2.2 : ℤ) + x)))

/-- `scipy.ndimage.gaussian_filter` with isotropic `sigma`: sequential 1-D
Gaussian filtering along the three axes. -/
noncomputable def gaussian_filter (s : Shape) (sigma : ℝ) (f : RVol) : RVol :=
  gaussianCorrelateZ s sigma (gaussianCorrelateY s sigma (gaussianCorrelateX s sigma f))

/-- `scipy.ndimage.binary_dilation` of the thresholded mask `0 < a` with the
default structuring element (6-connectivity cross, center included). -/
def dilate6 (s : Shape) (a : QVol) (v : Ix) : Prop :=
  0 < a v ∨ ∃ w ∈ gridFinset s, 0 < a w ∧ sqDist v w = 1

/-- Line 53: `binary_dilation(atlas_region > 0) ^ (atlas_region > 0)` — the
one-voxel boundary shell of the atlas mask. -/
def atlasBoundary (s : Shape) (a : QVol) (v : Ix) : Prop :=
  Xor' (dilate6 s a v) (0 < a v)

instance (s : Shape) (a : QVol) (v : Ix) : Decidable (dilate6 s a v) := by
  unfold dilate6; infer_instance

instance (s : Shape) (a : QVol) (v : Ix) : Decidable (atlasBoundary s a v) := by
  unfold atlasBoundary; infer_instance

/-- `binary_dilation(mask > 0, ball(2))`: dilation by the radius-2 Euclidean
ball (`skimage.morphology.ball(2)` contains the offsets with squared norm
≤ 4). -/
def dilateBall2 (s : Shape) (a : QVol) (v : Ix) : Prop :=
  ∃ w ∈ gridFinset s, 0 < a w ∧ sqDist v w ≤ 4

instance (s : Shape) (a : QVol) (v : Ix) : Decidable (dilateBall2 s a v) := by
  unfold dilateBall2; infer_instance

/-- Lines 27–58, `compute_brainstem_edge_function`: the edge-indicator field
built from the smoothed image gradient, optionally blended with the tissue
gradient, attenuated on the atlas boundary shell, and clipped to [0.1, 1.0]. -/
noncomputable def compute_brainstem_edge_function (s : Shape) (image : RVol)
    (tissue_maps : Option RVol) (atlas_region : Option QVol) (sigma k : ℝ) : RVol :=
  let smoothed := gaussian_filter s sigma image
  let grad_magnitude := gradMagnitude s smoothed
  let g_image : RVol := fun v => 1 / (1 + k * grad_magnitude v ^ 2)
  let g : RVol :=
    match tissue_maps with
    | some tm =>
      let tissue_mag := gradMagnitude s tm
      fun v => 0.7 * g_image v + 0.3 * (1 / (1 + 0.5 * tissue_mag v ^ 2))
    | none => g_image
  let g2 : RVol :=
    match atlas_region with
    | some ar => fun v => g v * (if atlasBoundary s ar v then 0.5 else 1.0)
    | none => g
  fun v => npClip (g2 v) 0.1 1.0

/-- `np.sum(phi > 0)`: the number of positive voxels of a real field. -/
noncomputable def countPosR (s : Shape) (phi : RVol) : ℕ :=
  ((gridFinset s).filter (fun v => 0 < phi v)).card

/-- `np.sum(a > 0)` for array data. -/
def countPosQ (s : Shape) (a : QVol) : ℕ :=
  ((gridFinset s).filter (fun v => 0 < a v)).card

/-- Lines 61–114, `compute_atlas_guided_speed_function`: normalized gradient,
morphological curvature approximation, base speed `g·(α+β·κ)`, and — when both
an atlas constraint and a tissue region are supplied — atlas-distance decay,
tissue preference and optional intensity-similarity multipliers. -/
noncomputable def compute_atlas_guided_speed_function (s : Shape) (phi g : RVol)
    (atlas_constraint : Option QVol) (tissue_region : Option QVol)
    (image_intensities : Option RVol) (alpha beta : ℝ) : RVol :=
  let nrmx : RVol := fun v => npGradientX s phi v / gradMagnitudeEps s phi v
  let nrmy : RVol := fun v => npGradientY s phi v / gradMagnitudeEps s phi v
  let nrmz : RVol := fun v => npGradientZ s phi v / gradMagnitudeEps s phi v
  let curvature : RVol := fun v =>
    npGradientX s nrmx v + npGradientY s nrmy v + npGradientZ s nrmz v
  let base_speed : RVol := fun v => g v * (alpha + beta * curvature v)
  match atlas_constraint, tissue_region with
  | some ac, some tr =>
    let distance_from_atlas : RVol := distance_transform_edt s (fun w => ¬ 0 < ac w)
    let distance_regulation : RVol := fun v => Real.exp (-distance_from_atlas v / 3.0)
    let tissue_preference : RVol := fun v => if 0 < tr v then 1.0 else 0.1
    let intensity_similarity : RVol :=
      match image_intensities with
      | some img =>
        if 10 < countPosR s phi then
          let region := (gridFinset s).filter (fun v => 0 < phi v)
          let mean_intensity := Finset.sum region img / (countPosR s phi : ℝ)
          let std_intensity :=
            Real.sqrt (Finset.sum region (fun v => (img v - mean_intensity) ^ 2) /
              (countPosR s phi : ℝ)) + 1e-6
          fun v => Real.exp (-0.5 * ((img v - mean_intensity) / std_intensity) ^ 2)
        else fun _ => 1
      | none => fun _ => 1
    fun v => base_speed v * distance_regulation v * tissue_preference v *
      intensity_similarity v
  | _, _ => base_speed

open Classical in
/-- Lines 174–226 of the evolution loop body: speed computation, upwind
(Godunov) gradient step `φ += dt·increment`, then the hierarchical tissue and
atlas constraints deciding the sign of the updated φ. -/
noncomputable def constrainedUpdate (s : Shape) (g : RVol) (tissue_region : QVol)
    (atlas_constraint : Option QVol) (image : RVol) (alpha beta dt : ℝ)
    (phi : RVol) : RVol :=
  let speed := compute_atlas_guided_speed_function s phi g atlas_constraint
    (some tissue_region) (some image) alpha beta
  let phi_x_plus : RVol := fun v => phi ((v.1 + 1) % s.1, v.2.1, v.2.2) - phi v
  let phi_x_minus : RVol := fun v => phi v - phi ((v.1 + s.1 - 1) % s.1, v.2.1, v.2.2)
  let phi_y_plus : RVol := fun v => phi (v.1, (v.2.1 + 1) % s.2.1, v.2.2) - phi v
  let phi_y_minus : RVol := fun v => phi v - phi (v.1, (v.2.1 + s.2.1 - 1) % s.2.1, v.2.2)
  let phi_z_plus : RVol := fun v => phi (v.1, v.2.1, (v.2.2 + 1) % s.2.2) - phi v
  let phi_z_minus : RVol := fun v => phi v - phi (v.1, v.2.1, (v.2.2 + s.2.2 - 1) % s.2.2)
  let grad_mag_plus : RVol := fun v => Real.sqrt
    (max (phi_x_minus v) 0 ^ 2 + min (phi_x_plus v) 0 ^ 2 +
     max (phi_y_minus v) 0 ^ 2 + min (phi_y_plus v) 0 ^ 2 +
     max (phi_z_minus v) 0 ^ 2 + min (phi_z_plus v) 0 ^ 2)
  let grad_mag_minus : RVol := fun v => Real.sqrt
    (min (phi_x_minus v) 0 ^ 2 + max (phi_x_plus v) 0 ^ 2 +
     min (phi_y_minus v) 0 ^ 2 + max (phi_y_plus v) 0 ^ 2 +
     min (phi_z_minus v) 0 ^ 2 + max (phi_z_plus v) 0 ^ 2)
  let evolution : RVol := fun v =>
    if 0 < speed v then speed v * grad_mag_plus v else speed v * grad_mag_minus v
  let phi_new : RVol := fun v => phi v + dt * evolution v
  let current_mask : Ix → Prop := fun v => 0 < phi_new v
  let tissue_constrained : Ix → Prop := fun v => current_mask v ∧ 0 < tissue_region v
  let atlas_constrained : Ix → Prop :=
    match atlas_constraint with
    | some ac => fun v => tissue_constrained v ∧ dilateBall2 s ac v
    | none => tissue_constrained
  fun v => if atlas_constrained v then |phi_new v| else -|phi_new v|

/-- One full iteration of the evolution loop body: constrained update, then —
on every 3rd iteration (`(iteration + 1) % 3 == 0`, 0-indexed `iteration`) —
reinitialization of φ as a signed distance function (lines 228–230). -/
noncomputable def evolStep (s : Shape) (g : RVol) (tissue_region : QVol)
    (atlas_constraint : Option QVol) (image : RVol) (alpha beta dt : ℝ)
    (iteration : ℕ) (phi : RVol) : RVol :=
  let phi1 := constrainedUpdate s g tissue_region atlas_constraint image alpha beta dt phi
  if (iteration + 1) % 3 = 0 then reinitPhi s phi1 else phi1

/-- `abs(current_volume - previous_volume)` (line 238). -/
def volChange (current previous : ℕ) : ℕ := ((current : ℤ) - previous).natAbs

/-- How the evolution loop stopped: the convergence break (line 241), the
atlas safety break (line 248), or completion of all `num_iterations`. -/
inductive StopReason where
  | converged
  | safety
  | completed
deriving DecidableEq

/-- The evolution driver's outcome: the final level-set field, the 1-indexed
number of completed iterations, and how the loop stopped. -/
structure LoopResult where
  phi : RVol
  iters : ℕ
  reason : StopReason

/-- The safety condition of lines 244–248: only with an atlas constraint, and
only when `current_volume > 2 * atlas_volume`. -/
def safetyTriggered (atlasVol : Option ℕ) (current : ℕ) : Bool :=
  match atlasVol with
  | some av => decide (2 * av < current)
  | none => false

/-- The evolution loop of lines 171–250 with convergence threshold `thr`:
each iteration applies the loop body `step`, counts the positive voxels, and
— from the second iteration on — breaks on convergence
(`volume_change < thr`) first, then on the atlas safety check; otherwise it
records `previous_volume` and continues. `fuel` is the number of remaining
iterations, `iter` the 0-indexed Python loop variable. -/
noncomputable def gacLoopAux (s : Shape) (thr : ℕ) (atlasVol : Option ℕ)
    (step : ℕ → RVol → RVol) : ℕ → ℕ → RVol → ℕ → LoopResult
  | 0, iter, phi, _ => ⟨phi, iter, StopReason.completed⟩
  | fuel + 1, iter, phi, prev =>
    let phi2 := step iter phi
    let current := countPosR s phi2
    if 1 ≤ iter ∧ volChange current prev < thr then ⟨phi2, iter + 1, StopReason.converged⟩
    else if 1 ≤ iter ∧ safetyTriggered atlasVol current = true then
      ⟨phi2, iter + 1, StopReason.safety⟩
    else gacLoopAux s thr atlasVol step fuel (iter + 1) phi2 current

/-- The loop as written in the atlas-guided source: convergence threshold 5
(line 239) in both the atlas-guided and the atlas-less invocation of this
script. -/
noncomputable def srcGacLoop (s : Shape) (atlasVol : Option ℕ)
    (step : ℕ → RVol → RVol) (fuel iter : ℕ) (phi : RVol) (prev : ℕ) : LoopResult :=
  gacLoopAux s 5 atlasVol step fuel iter phi prev

/-- Modelled from the spec: the plain (non-atlas) GAC variant is a
near-duplicate script that is not among the repository files under `src/`;
per the spec (§4.3) its convergence threshold is 10 and it has no atlas
safety stop. -/
noncomputable def plainGacLoop (s : Shape) (step : ℕ → RVol → RVol)
    (fuel iter : ℕ) (phi : RVol) (prev : ℕ) : LoopResult :=
  gacLoopAux s 10 none step fuel iter phi prev

/-- Lines 117–250, `atlas_guided_morphological_geodesic_active_contour` up to
the final thresholding: edge field, signed-distance initialization, and the
evolution loop. -/
noncomputable def srcGacRun (s : Shape) (image initial_mask tissue_region : QVol)
    (atlas_constraint : Option QVol) (num_iterations : ℕ)
    (sigma k alpha beta dt : ℝ) : LoopResult :=
  let imageR : RVol := fun v => (image v : ℝ)
  let g := compute_brainstem_edge_function s imageR
    (some (fun v => (tissue_region v : ℝ))) atlas_constraint sigma k
  let phi0 := phiInitial s initial_mask
  srcGacLoop s (atlas_constraint.map (countPosQ s))
    (evolStep s g tissue_region atlas_constraint imageR alpha beta dt)
    num_iterations 0 phi0 0

/-- Lines 252–253: `final_mask = (phi > 0).astype(np.uint8)` — the binary
mask returned by the evolution engine. -/
noncomputable def atlas_guided_morphological_geodesic_active_contour (s : Shape)
    (image initial_mask tissue_region : QVol) (atlas_constraint : Option QVol)
    (num_iterations : ℕ) (sigma k alpha beta dt : ℝ) : Ix → ℕ := fun v =>
  if 0 < (srcGacRun s image initial_mask tissue_region atlas_constraint
      num_iterations sigma k alpha beta dt).phi v then 1 else 0

/-- A loaded 3-D volume file: its shape and its (finite-precision, hence
rational) voxel data; indices outside the shape are irrelevant. -/
structure NDArray where
  shape : Shape
  data : QVol

/-- `np.sum(a > 0)` over a loaded array. -/
def countPosA (a : NDArray) : ℕ := countPosQ a.shape a.data

/-- The validation failures of `validate_inputs` (lines 260–272) and the atlas
shape check of `main` (lines 318–320), carrying the offending shapes/counts
that the source interpolates into its `ValueError` messages. -/
inductive ValidationError where
  | shapeMismatch (imageShape maskShape tissueShape : Shape)
  | emptyInitialMask
  | emptyTissueRegion
  | initialMaskTooSmall (count : ℕ)
  | atlasShapeMismatch (atlasShape imageShape : Shape)
deriving DecidableEq

/-- Lines 260–272, `validate_inputs`: shape agreement, non-empty masks, and
the minimum seed size of 10 positive voxels, checked in source order. -/
def validate_inputs (image initial_mask tissue_region : NDArray) :
    Except ValidationError Unit :=
  if image.shape ≠ initial_mask.shape ∨ image.shape ≠ tissue_region.shape then
    Except.error (ValidationError.shapeMismatch image.shape initial_mask.shape
      tissue_region.shape)
  else if countPosA initial_mask = 0 then Except.error ValidationError.emptyInitialMask
  else if countPosA tissue_region = 0 then Except.error ValidationError.emptyTissueRegion
  else if countPosA initial_mask < 10 then
    Except.error (ValidationError.initialMaskTooSmall (countPosA initial_mask))
  else Except.ok ()

/-- The observable outcome of one CLI invocation: the process exit code,
the output mask written (if any), and the error surfaced on stderr (if any). -/
structure CLIOutcome where
  exitCode : ℕ
  written : Option (Ix → ℕ)
  stderrMsg : Option ValidationError

/-- Lines 281–370, `main`, with file I/O abstracted to already-loaded arrays:
validate, check the optional atlas shape, run the evolution, write the output;
any raised validation error is caught by the `except` handler, printed to
stderr, and the process exits with code 1 without writing an output file. -/
noncomputable def mainModel (image initial_mask tissue_region : NDArray)
    (atlas : Option NDArray) (num_iterations : ℕ)
    (sigma k alpha beta dt : ℝ) : CLIOutcome :=
  match validate_inputs image initial_mask tissue_region with
  | Except.error e => ⟨1, none, some e⟩
  | Except.ok _ =>
    match atlas with
    | some a =>
      if a.shape ≠ image.shape then
        ⟨1, none, some (ValidationError.atlasShapeMismatch a.shape image.shape)⟩
      else
        ⟨0, some (atlas_guided_morphological_geodesic_active_contour image.shape
          image.data initial_mask.data tissue_region.data (some a.data)
          num_iterations sigma k alpha beta dt), none⟩
    | none =>
      ⟨0, some (atlas_guided_morphological_geodesic_active_contour image.shape
        image.data initial_mask.data tissue_region.data none
        num_iterations sigma k alpha beta dt), none⟩

/-- 2×1×1 shape for the concrete witness inputs. -/
def s211 : Shape := (2, 1, 1)

/-- Mask data with one positive voxel, at the origin. -/
def maskSingle : QVol := fun v => if v = (0, 0, 0) then 1 else 0

/-- All-ones array data. -/
def onesQ : QVol := fun _ => 1

/-- The constant-one real field. -/
def constOneR : RVol := fun _ => 1

/-- A sign-test level-set field: positive on the x = 0 plane, negative
elsewhere. -/
def phiTestSign : RVol := fun v => if v.1 = 0 then 1 else -1

/-- A 2×1×1 all-ones volume. -/
def ndVol211 : NDArray := ⟨s211, onesQ⟩

/-- A 1×1×1 all-ones volume (shape-mismatch partner of `ndVol211`). -/
def ndVol111 : NDArray := ⟨(1, 1, 1), onesQ⟩

lemma sqDist_self (v : Ix) : sqDist v v = 0 := by
  simp [sqDist]

lemma sqDist_eq_zero_iff {v w : Ix} : sqDist v w = 0 ↔ v = w := by
  obtain ⟨a, b, c⟩ := v
  obtain ⟨d, e, f⟩ := w
  simp only [sqDist, Nat.add_eq_zero, pow_eq_zero_iff, two_ne_zero, Int.natAbs_eq_zero,
    sub_eq_zero, Prod.mk.injEq, ne_eq, OfNat.ofNat_ne_zero, not_false_eq_true]
  constructor
  · rintro ⟨⟨h1, h2⟩, h3⟩
    exact ⟨by exact_mod_cast h1, by exact_mod_cast h2, by exact_mod_cast h3⟩
  · rintro ⟨h1, h2, h3⟩
    subst h1; subst h2; subst h3; simp

lemma minSqDistToSet_eq_zero_of_mem {s : Shape} {A : Ix → Prop} [DecidablePred A]
    {v : Ix} (hv : v ∈ gridFinset s) (hA : A v) : minSqDistToSet s A v = 0 := by
  have hmem : sqDist v v ∈ ((gridFinset s).filter A).image (sqDist v) :=
    Finset.mem_image_of_mem _ (Finset.mem_filter.mpr ⟨hv, hA⟩)
  have hle := Finset.min_le hmem
  rw [sqDist_self] at hle
  unfold minSqDistToSet
  rcases hmin : (((gridFinset s).filter A).image (sqDist v)).min with _ | m
  · rfl
  · rw [hmin, WithTop.some_eq_coe, WithTop.coe_le_coe] at hle
    have hm0 : m = 0 := Nat.le_zero.mp hle
    rw [hm0]; rfl

lemma minSqDistToSet_pos {s : Shape} {A : Ix → Prop} [DecidablePred A] {v : Ix}
    (hne : ∃ w ∈ gridFinset s, A w) (hv : ¬ A v) : 0 < minSqDistToSet s A v := by
  obtain ⟨w, hwg, hwA⟩ := hne
  have hED : sqDist v w ∈ ((gridFinset s).filter A).image (sqDist v) :=
    Finset.mem_image_of_mem _ (Finset.mem_filter.mpr ⟨hwg, hwA⟩)
  obtain ⟨m, hmin⟩ := Finset.min_of_mem hED
  have hall : ∀ b ∈ ((gridFinset s).filter A).image (sqDist v), 0 < b := by
    intro b hb
    obtain ⟨u, hu, hub⟩ := Finset.mem_image.mp hb
    have huA : A u := (Finset.mem_filter.mp hu).2
    have hvu : v ≠ u := fun h => hv (h ▸ huA)
    have : sqDist v u ≠ 0 := fun h0 => hvu (sqDist_eq_zero_iff.mp h0)
    omega
  have hmem := Finset.mem_of_min hmin
  have hmpos := hall m hmem
  unfold minSqDistToSet
  rw [hmin]
  simpa [WithTop.untop'_coe] using hmpos

lemma minSqDistToSet_congr {s : Shape} {A B : Ix → Prop} [DecidablePred A] [DecidablePred B]
    (h : ∀ w ∈ gridFinset s, (A w ↔ B w)) (v : Ix) :
    minSqDistToSet s A v = minSqDistToSet s B v := by
  unfold minSqDistToSet
  rw [Finset.filter_congr h]

lemma reinitPhi_eq_of_neg {s : Shape} {phi : RVol} {v : Ix} (hv : phi v < 0) :
    reinitPhi s phi v = Real.sqrt (minSqDistToSet s (fun w => ¬ phi w < 0) v) := by
  unfold reinitPhi distance_transform_edt
  rw [if_pos hv, if_neg (not_le.mpr hv), sub_zero]

lemma reinitPhi_eq_of_nonneg {s : Shape} {phi : RVol} {v : Ix} (hv : 0 ≤ phi v) :
    reinitPhi s phi v = -Real.sqrt (minSqDistToSet s (fun w => ¬ 0 ≤ phi w) v) := by
  unfold reinitPhi distance_transform_edt
  rw [if_neg (not_lt.mpr hv), if_pos hv, zero_sub]

lemma reinitPhi_pos_of_neg {s : Shape} {phi : RVol} {v : Ix} (hv : phi v < 0)
    (hpos : ∃ w ∈ gridFinset s, 0 ≤ phi w) : 0 < reinitPhi s phi v := by
  rw [reinitPhi_eq_of_neg hv]
  apply Real.sqrt_pos.mpr
  have h := minSqDistToSet_pos (s := s) (A := fun w => ¬ phi w < 0) (v := v)
    (by obtain ⟨w, hw, h0⟩ := hpos; exact ⟨w, hw, not_lt.mpr h0⟩) (not_not_intro hv)
  exact_mod_cast h

lemma reinitPhi_neg_of_nonneg {s : Shape} {phi : RVol} {v : Ix} (hv : 0 ≤ phi v)
    (hneg : ∃ w ∈ gridFinset s, phi w < 0) : reinitPhi s phi v < 0 := by
  rw [reinitPhi_eq_of_nonneg hv]
  apply neg_lt_zero.mpr
  apply Real.sqrt_pos.mpr
  have h := minSqDistToSet_pos (s := s) (A := fun w => ¬ 0 ≤ phi w) (v := v)
    (by obtain ⟨w, hw, h0⟩ := hneg; exact ⟨w, hw, not_le.mpr h0⟩) (not_not_intro hv)
  exact_mod_cast h

lemma reinitPhi_isSignedEDF {s : Shape} {phi : RVol}
    (hpos : ∃ w ∈ gridFinset s, 0 ≤ phi w) (hneg : ∃ w ∈ gridFinset s, phi w < 0) :
    isSignedEDF s (reinitPhi s phi) := by
  intro v hv
  rcases lt_or_le (phi v) 0 with hvneg | hvpos
  · have hv' : 0 < reinitPhi s phi v := reinitPhi_pos_of_neg hvneg hpos
    refine ⟨fun _ => ?_, fun h => absurd hv' (not_lt.mpr h.le), ne_of_gt hv'⟩
    have hmin : minSqDistToSet s (fun w => reinitPhi s phi w ≤ 0) v =
        minSqDistToSet s (fun w => ¬ phi w < 0) v := by
      refine minSqDistToSet_congr (fun w hw => ?_) v
      constructor
      · intro hle
        by_contra hwneg
        exact absurd (reinitPhi_pos_of_neg hwneg hpos) (not_lt.mpr hle)
      · intro hnlt
        exact (reinitPhi_neg_of_nonneg (not_lt.mp hnlt) hneg).le
    rw [reinitPhi_eq_of_neg hvneg, hmin]
  · have hv' : reinitPhi s phi v < 0 := reinitPhi_neg_of_nonneg hvpos hneg
    refine ⟨fun h => absurd hv' (not_lt.mpr h.le), fun _ => ?_, ne_of_lt hv'⟩
    have hmin : minSqDistToSet s (fun w => 0 < reinitPhi s phi w) v =
        minSqDistToSet s (fun w => ¬ 0 ≤ phi w) v := by
      refine minSqDistToSet_congr (fun w hw => ?_) v
      constructor
      · intro hwpos
        by_contra hwnlt
        exact absurd hwpos (not_lt.mpr (reinitPhi_neg_of_nonneg hwnlt hneg).le)
      · intro hwneg
        exact reinitPhi_pos_of_neg (not_le.mp hwneg) hpos
    rw [reinitPhi_eq_of_nonneg hvpos, hmin]

lemma phiInitial_neg_of_pos {s : Shape} {m : QVol} {v : Ix} (hv : 0 < m v)
    (hne : ∃ w ∈ gridFinset s, ¬ 0 < m w) : phiInitial s m v < 0 := by
  unfold phiInitial
  apply reinitPhi_neg_of_nonneg
  · rw [if_pos hv]; norm_num
  · obtain ⟨w, hw, hwm⟩ := hne
    exact ⟨w, hw, by rw [if_neg hwm]; norm_num⟩

lemma phiInitial_pos_of_not {s : Shape} {m : QVol} {v : Ix} (hv : ¬ 0 < m v)
    (hne : ∃ w ∈ gridFinset s, 0 < m w) : 0 < phiInitial s m v := by
  unfold phiInitial
  apply reinitPhi_pos_of_neg
  · rw [if_neg hv]; norm_num
  · obtain ⟨w, hw, hwm⟩ := hne
    exact ⟨w, hw, by rw [if_pos hwm]; norm_num⟩

lemma phiInitial_isSignedEDF {s : Shape} {m : QVol}
    (hpos : ∃ w ∈ gridFinset s, 0 < m w) (hneg : ∃ w ∈ gridFinset s, ¬ 0 < m w) :
    isSignedEDF s (phiInitial s m) := by
  unfold phiInitial
  apply reinitPhi_isSignedEDF
  · obtain ⟨w, hw, hwm⟩ := hpos
    exact ⟨w, hw, by rw [if_pos hwm]; norm_num⟩
  · obtain ⟨w, hw, hwm⟩ := hneg
    exact ⟨w, hw, by rw [if_neg hwm]; norm_num⟩

lemma gacLoopAux_succ (s : Shape) (thr : ℕ) (av : Option ℕ) (step : ℕ → RVol → RVol)
    (fuel iter : ℕ) (phi : RVol) (prev : ℕ) :
    gacLoopAux s thr av step (fuel + 1) iter phi prev =
      if 1 ≤ iter ∧ volChange (countPosR s (step iter phi)) prev < thr then
        ⟨step iter phi, iter + 1, StopReason.converged⟩
      else if 1 ≤ iter ∧ safetyTriggered av (countPosR s (step iter phi)) = true then
        ⟨step iter phi, iter + 1, StopReason.safety⟩
      else gacLoopAux s thr av step fuel (iter + 1) (step iter phi)
        (countPosR s (step iter phi)) := rfl

lemma gacLoopAux_zero (s : Shape) (thr : ℕ) (av : Option ℕ) (step : ℕ → RVol → RVol)
    (iter : ℕ) (phi : RVol) (prev : ℕ) :
    gacLoopAux s thr av step 0 iter phi prev = ⟨phi, iter, StopReason.completed⟩ := rfl

lemma gacLoopAux_converged_step {s : Shape} {thr : ℕ} {av : Option ℕ}
    {step : ℕ → RVol → RVol} {fuel iter : ℕ} {phi : RVol} {prev : ℕ}
    (h1 : 1 ≤ iter) (hc : volChange (countPosR s (step iter phi)) prev < thr) :
    gacLoopAux s thr av step (fuel + 1) iter phi prev =
      ⟨step iter phi, iter + 1, StopReason.converged⟩ := by
  rw [gacLoopAux_succ, if_pos ⟨h1, hc⟩]

lemma gacLoopAux_safety_step {s : Shape} {thr : ℕ} {av : Option ℕ}
    {step : ℕ → RVol → RVol} {fuel iter : ℕ} {phi : RVol} {prev : ℕ}
    (h1 : 1 ≤ iter) (hnc : ¬ volChange (countPosR s (step iter phi)) prev < thr)
    (hs : safetyTriggered av (countPosR s (step iter phi)) = true) :
    gacLoopAux s thr av step (fuel + 1) iter phi prev =
      ⟨step iter phi, iter + 1, StopReason.safety⟩ := by
  rw [gacLoopAux_succ, if_neg (fun h => hnc h.2), if_pos ⟨h1, hs⟩]

lemma gacLoopAux_iters_le (s : Shape) (thr : ℕ) (av : Option ℕ)
    (step : ℕ → RVol → RVol) :
    ∀ fuel iter phi prev, (gacLoopAux s thr av step fuel iter phi prev).iters ≤ iter + fuel := by
  intro fuel
  induction fuel with
  | zero => intro iter phi prev; rw [gacLoopAux_zero]; dsimp only; omega
  | succ n ih =>
    intro iter phi prev
    rw [gacLoopAux_succ]
    split
    · dsimp only; omega
    · split
      · dsimp only; omega
      · have h := ih (iter + 1) (step iter phi) (countPosR s (step iter phi))
        omega

lemma gacLoopAux_last (s : Shape) (thr : ℕ) (av : Option ℕ) (step : ℕ → RVol → RVol) :
    ∀ fuel iter phi prev, 1 ≤ fuel →
      ∃ j phiP, (gacLoopAux s thr av step fuel iter phi prev).phi = step j phiP ∧
        (gacLoopAux s thr av step fuel iter phi prev).iters = j + 1 := by
  intro fuel
  induction fuel with
  | zero => intro iter phi prev h; omega
  | succ n ih =>
    intro iter phi prev _
    rw [gacLoopAux_succ]
    split
    · exact ⟨iter, phi, rfl, rfl⟩
    · split
      · exact ⟨iter, phi, rfl, rfl⟩
      · cases n with
        | zero => exact ⟨iter, phi, rfl, rfl⟩
        | succ m =>
          exact ih (iter + 1) (step iter phi) (countPosR s (step iter phi))
            (Nat.succ_le_succ (Nat.zero_le m))

lemma gacLoopAux_early_or_completed (s : Shape) (thr : ℕ) (av : Option ℕ)
    (step : ℕ → RVol → RVol) :
    ∀ fuel iter phi prev,
      (gacLoopAux s thr av step fuel iter phi prev).reason = StopReason.completed ∨
        2 ≤ (gacLoopAux s thr av step fuel iter phi prev).iters := by
  intro fuel
  induction fuel with
  | zero => intro iter phi prev; left; rw [gacLoopAux_zero]
  | succ n ih =>
    intro iter phi prev
    rw [gacLoopAux_succ]
    split
    · next h => right; have := h.1; dsimp only; omega
    · split
      · next h => right; have := h.1; dsimp only; omega
      · exact ih (iter + 1) (step iter phi) (countPosR s (step iter phi))

lemma pos_of_signed_ite {c : Prop} {inst : Decidable c} {x : ℝ}
    (h : 0 < @ite ℝ c inst |x| (-|x|)) : c := by
  by_cases hc : c
  · exact hc
  · rw [if_neg hc] at h
    exact absurd h (not_lt.mpr (neg_nonpos.mpr (abs_nonneg x)))

lemma constrainedUpdate_pos_atlas {s : Shape} {g : RVol} {tissue : QVol} {ac : QVol}
    {image : RVol} {alpha beta dt : ℝ} {phi : RVol} {v : Ix}
    (h : 0 < constrainedUpdate s g tissue (some ac) image alpha beta dt phi v) :
    0 < tissue v ∧ dilateBall2 s ac v := by
  unfold constrainedUpdate at h
  dsimp only at h
  have hc := pos_of_signed_ite h
  exact ⟨hc.1.2, hc.2⟩

lemma constrainedUpdate_pos_none {s : Shape} {g : RVol} {tissue : QVol}
    {image : RVol} {alpha beta dt : ℝ} {phi : RVol} {v : Ix}
    (h : 0 < constrainedUpdate s g tissue none image alpha beta dt phi v) :
    0 < tissue v := by
  unfold constrainedUpdate at h
  dsimp only at h
  have hc := pos_of_signed_ite h
  exact hc.2

lemma evolStep_reinit {s : Shape} {g : RVol} {tissue : QVol} {atlas : Option QVol}
    {image : RVol} {alpha beta dt : ℝ} {iteration : ℕ} {phi : RVol}
    (h : (iteration + 1) % 3 = 0) :
    evolStep s g tissue atlas image alpha beta dt iteration phi =
      reinitPhi s (constrainedUpdate s g tissue atlas image alpha beta dt phi) := by
  unfold evolStep
  rw [if_pos h]

lemma evolStep_no_reinit {s : Shape} {g : RVol} {tissue : QVol} {atlas : Option QVol}
    {image : RVol} {alpha beta dt : ℝ} {iteration : ℕ} {phi : RVol}
    (h : ¬ (iteration + 1) % 3 = 0) :
    evolStep s g tissue atlas image alpha beta dt iteration phi =
      constrainedUpdate s g tissue atlas image alpha beta dt phi := by
  unfold evolStep
  rw [if_neg h]

lemma validate_inputs_ok {image initial_mask tissue_region : NDArray}
    (h : validate_inputs image initial_mask tissue_region = Except.ok ()) :
    (image.shape = initial_mask.shape ∧ image.shape = tissue_region.shape) ∧
      countPosA tissue_region ≠ 0 ∧ ¬ countPosA initial_mask < 10 := by
  unfold validate_inputs at h
  split at h
  · exact absurd h (by simp)
  · split at h
    · exact absurd h (by simp)
    · split at h
      · exact absurd h (by simp)
      · split at h
        · exact absurd h (by simp)
        · next h1 h2 h3 h4 =>
          push_neg at h1
          exact ⟨h1, h3, h4⟩

lemma volChange_self (n : ℕ) : volChange n n = 0 := by
  simp [volChange]

lemma countPosR_const_one (s : Shape) : countPosR s (fun _ => (1 : ℝ)) = (gridFinset s).card := by
  unfold countPosR
  rw [Finset.filter_true_of_mem (fun v _ => zero_lt_one)]

lemma card_gridFinset (s : Shape) : (gridFinset s).card = s.1 * (s.2.1 * s.2.2) := by
  unfold gridFinset
  rw [Finset.card_product, Finset.card_product, Finset.card_range, Finset.card_range,
    Finset.card_range]

lemma countPosR_constOneR_s211 : countPosR s211 constOneR = 2 := by
  show countPosR s211 (fun _ => (1 : ℝ)) = 2
  rw [countPosR_const_one, card_gridFinset]
  rfl

/-- C4: for every input volume, every optional tissue-probability and
atlas-mask input, and all parameter values `sigma` and `k`, every voxel of
the edge field returned by `compute_brainstem_edge_function` lies in the
closed interval [0.1, 1.0]; in particular no voxel is ever below 0.1. -/
theorem C4_edge_field_bounds (s : Shape) (image : RVol) (tissue_maps : Option RVol)
    (atlas_region : Option QVol) (sigma k : ℝ) (v : Ix) :
    0.1 ≤ compute_brainstem_edge_function s image tissue_maps atlas_region sigma k v ∧
    compute_brainstem_edge_function s image tissue_maps atlas_region sigma k v ≤ 1.0 := by
  unfold compute_brainstem_edge_function npClip
  dsimp only
  exact ⟨le_min (le_max_right _ _) (by norm_num), min_le_right _ _⟩

/-- C10: for every real-valued φ (including constant φ with zero gradient
everywhere) and every voxel, the denominator `gradMagnitudeEps` used by the
speed-field computer to normalize the gradient of φ is at least `sqrt(1e-8)`
and hence strictly positive, so the divisions producing the unit-normal
components never divide by zero. -/
theorem C10_gradient_denominator_positive (s : Shape) (phi : RVol) (v : Ix) :
    Real.sqrt 1e-8 ≤ gradMagnitudeEps s phi v ∧ 0 < gradMagnitudeEps s phi v := by
  unfold gradMagnitudeEps
  constructor
  · apply Real.sqrt_le_sqrt
    nlinarith [sq_nonneg (npGradientX s phi v), sq_nonneg (npGradientY s phi v),
      sq_nonneg (npGradientZ s phi v)]
  · apply Real.sqrt_pos.mpr
    nlinarith [sq_nonneg (npGradientX s phi v), sq_nonneg (npGradientY s phi v),
      sq_nonneg (npGradientZ s phi v), show (0 : ℝ) < 1e-8 by norm_num]

/-- C8: the full evolution is a pure function of its inputs — two runs of
`atlas_guided_morphological_geodesic_active_contour` on identical input
arrays and identical parameters return voxelwise identical final masks. -/
theorem C8_determinism (s : Shape) (image initial_mask tissue_region : QVol)
    (atlas_constraint : Option QVol) (num_iterations : ℕ) (sigma k alpha beta dt : ℝ)
    (mask1 mask2 : Ix → ℕ)
    (h1 : mask1 = atlas_guided_morphological_geodesic_active_contour s image initial_mask
      tissue_region atlas_constraint num_iterations sigma k alpha beta dt)
    (h2 : mask2 = atlas_guided_morphological_geodesic_active_contour s image initial_mask
      tissue_region atlas_constraint num_iterations sigma k alpha beta dt) :
    mask1 = mask2 :=
  h1.trans h2.symm

theorem C8_determinism_witness :
    atlas_guided_morphological_geodesic_active_contour s211 onesQ maskSingle onesQ none
      1 1 1 1 0 1 =
    atlas_guided_morphological_geodesic_active_contour s211 onesQ maskSingle onesQ none
      1 1 1 1 0 1 :=
  C8_determinism s211 onesQ maskSingle onesQ none 1 1 1 1 0 1 _ _ rfl rfl

/-- C9: for every valid input and every `num_iterations ≥ 0` the evolution
loop terminates after at most `num_iterations` iterations and returns a
binary ({0,1}-valued) mask; the convergence stop, the atlas safety stop and
completing the final iteration are the only ways out of the loop (and the
two early stops can only fire from the second iteration on). -/
theorem C9_loop_termination (s : Shape) (image initial_mask tissue_region : QVol)
    (atlas_constraint : Option QVol) (num_iterations : ℕ) (sigma k alpha beta dt : ℝ) :
    (srcGacRun s image initial_mask tissue_region atlas_constraint num_iterations
        sigma k alpha beta dt).iters ≤ num_iterations ∧
    (∀ v, atlas_guided_morphological_geodesic_active_contour s image initial_mask
        tissue_region atlas_constraint num_iterations sigma k alpha beta dt v = 0 ∨
      atlas_guided_morphological_geodesic_active_contour s image initial_mask
        tissue_region atlas_constraint num_iterations sigma k alpha beta dt v = 1) ∧
    ((srcGacRun s image initial_mask tissue_region atlas_constraint num_iterations
        sigma k alpha beta dt).reason = StopReason.completed ∨
      2 ≤ (srcGacRun s image initial_mask tissue_region atlas_constraint num_iterations
        sigma k alpha beta dt).iters) ∧
    ((srcGacRun s image initial_mask tissue_region atlas_constraint num_iterations
        sigma k alpha beta dt).reason = StopReason.converged ∨
      (srcGacRun s image initial_mask tissue_region atlas_constraint num_iterations
        sigma k alpha beta dt).reason = StopReason.safety ∨
      (srcGacRun s image initial_mask tissue_region atlas_constraint num_iterations
        sigma k alpha beta dt).reason = StopReason.completed) := by
  have hrun : srcGacRun s image initial_mask tissue_region atlas_constraint num_iterations
      sigma k alpha beta dt =
      gacLoopAux s 5 (atlas_constraint.map (countPosQ s))
        (evolStep s (compute_brainstem_edge_function s (fun v => (image v : ℝ))
          (some (fun v => (tissue_region v : ℝ))) atlas_constraint sigma k)
          tissue_region atlas_constraint (fun v => (image v : ℝ)) alpha beta dt)
        num_iterations 0 (phiInitial s initial_mask) 0 := rfl
  refine ⟨?_, ?_, ?_, ?_⟩
  · rw [hrun]
    simpa using gacLoopAux_iters_le s 5 (atlas_constraint.map (countPosQ s)) _
      num_iterations 0 (phiInitial s initial_mask) 0
  · intro v
    unfold atlas_guided_morphological_geodesic_active_contour
    split
    · right; rfl
    · left; rfl
  · rw [hrun]
    exact (gacLoopAux_early_or_completed s 5 _ _ num_iterations 0 _ 0).imp id id
  · cases hres : (srcGacRun s image initial_mask tissue_region atlas_constraint
      num_iterations sigma k alpha beta dt).reason
    · exact Or.inl rfl
    · exact Or.inr (Or.inl rfl)
    · exact Or.inr (Or.inr rfl)

/-- C2: in plain (non-atlas) mode — the plain GAC variant, modelled from the
spec since its script is not among the files under `src/` — any iteration
`i ≥ 2` (1-indexed) whose positive-voxel count differs from the previous
count by strictly less than 10 makes the loop stop as `Converged` without
running further iterations; in the atlas-guided source the threshold is
strictly less than 5. -/
theorem C2_convergence_thresholds :
    (∀ (s : Shape) (step : ℕ → RVol → RVol) (fuel iter : ℕ) (phi : RVol)
        (prev cur : ℕ), 1 ≤ iter → countPosR s (step iter phi) = cur →
        volChange cur prev < 10 →
        plainGacLoop s step (fuel + 1) iter phi prev =
          ⟨step iter phi, iter + 1, StopReason.converged⟩) ∧
    (∀ (s : Shape) (av : Option ℕ) (step : ℕ → RVol → RVol) (fuel iter : ℕ)
        (phi : RVol) (prev cur : ℕ), 1 ≤ iter → countPosR s (step iter phi) = cur →
        volChange cur prev < 5 →
        srcGacLoop s av step (fuel + 1) iter phi prev =
          ⟨step iter phi, iter + 1, StopReason.converged⟩) := by
  constructor
  · intro s step fuel iter phi prev cur h1 hcur hc
    unfold plainGacLoop
    exact gacLoopAux_converged_step h1 (by rw [hcur]; exact hc)
  · intro s av step fuel iter phi prev cur h1 hcur hc
    unfold srcGacLoop
    exact gacLoopAux_converged_step h1 (by rw [hcur]; exact hc)

theorem C2_convergence_thresholds_witness :
    plainGacLoop s211 (fun _ _ => constOneR) 1 1 constOneR 2 =
      ⟨constOneR, 2, StopReason.converged⟩ ∧
    srcGacLoop s211 (some 3) (fun _ _ => constOneR) 1 1 constOneR 2 =
      ⟨constOneR, 2, StopReason.converged⟩ :=
  ⟨C2_convergence_thresholds.1 s211 (fun _ _ => constOneR) 0 1 constOneR 2 2
      (by decide) countPosR_constOneR_s211 (by decide),
    C2_convergence_thresholds.2 s211 (some 3) (fun _ _ => constOneR) 0 1 constOneR 2 2
      (by decide) countPosR_constOneR_s211 (by decide)⟩

/-- C3 counterexample: a run of the atlas-guided loop (atlas volume 0, every
level-set state all-positive with 2 voxels, so `current_volume = 2 > 0 =
2 × atlas_volume` already after iteration 1) nevertheless performs a second
iteration and then stops as `Converged`, not `Stopped(safety)`: the safety
check is skipped on the first iteration and is preempted by the convergence
check afterwards, so the loop does continue past a state with
`current_volume > 2 * atlas_volume`. -/
theorem C3_counterexample :
    2 * 0 < countPosR s211 constOneR ∧
    (srcGacLoop s211 (some 0) (fun _ _ => constOneR) 2 0 constOneR 0).iters = 2 ∧
    (srcGacLoop s211 (some 0) (fun _ _ => constOneR) 2 0 constOneR 0).reason =
      StopReason.converged := by
  refine ⟨by rw [countPosR_constOneR_s211]; norm_num, ?_, ?_⟩ <;>
  · unfold srcGacLoop
    rw [gacLoopAux_succ, if_neg (by simp), if_neg (by simp),
      gacLoopAux_succ, if_pos ⟨le_refl 1, by rw [volChange_self]; norm_num⟩]

/-- C3 amended: in atlas-guided mode, an iteration `i ≥ 2` (1-indexed) whose
positive-voxel count exceeds `2 × atlas_volume` stops the loop as
`Stopped(safety)` with no further iterations, provided the convergence check
(which the source evaluates first) did not already fire — i.e. the volume
change from the previous iteration is at least 5; on the first iteration both
checks are skipped. -/
theorem C3_amended_safety_stop (s : Shape) (step : ℕ → RVol → RVol) (av : ℕ)
    (fuel iter : ℕ) (phi : RVol) (prev cur : ℕ) (h1 : 1 ≤ iter)
    (hcur : countPosR s (step iter phi) = cur) (hnc : ¬ volChange cur prev < 5)
    (hs : 2 * av < cur) :
    srcGacLoop s (some av) step (fuel + 1) iter phi prev =
      ⟨step iter phi, iter + 1, StopReason.safety⟩ := by
  unfold srcGacLoop
  refine gacLoopAux_safety_step h1 (by rw [hcur]; exact hnc) ?_
  unfold safetyTriggered
  rw [hcur]
  exact decide_eq_true hs

theorem C3_amended_safety_stop_witness :
    srcGacLoop s211 (some 0) (fun _ _ => constOneR) 1 1 constOneR 9 =
      ⟨constOneR, 2, StopReason.safety⟩ :=
  C3_amended_safety_stop s211 (fun _ _ => constOneR) 0 0 1 constOneR 9 2 (by decide)
    countPosR_constOneR_s211 (by decide) (by decide)

/-- C1 counterexample: on a 2×1×1 grid whose initial mask is positive exactly
at the origin, the level-set field at t=0 is strictly negative at that inside
voxel — the opposite of the claimed `phi > 0` on the inside region. -/
theorem C1_counterexample :
    0 < maskSingle (0, 0, 0) ∧ phiInitial s211 maskSingle (0, 0, 0) < 0 :=
  ⟨by decide, phiInitial_neg_of_pos (by decide) (by decide)⟩

/-- C1 amended: at t=0 and immediately after every 3rd completed iteration
(1-indexed, `i % 3 == 0`) φ is a true signed Euclidean-distance field of its
own sign pattern — magnitude equal to the Euclidean distance to the nearest
opposite-sign voxel — but with the sign convention inverted relative to the
claim: at t=0 φ < 0 on the initial mask and φ > 0 outside it, and each
reinitialization likewise makes φ positive exactly where the incoming φ was
negative. -/
theorem C1_amended_signed_distance :
    (∀ (s : Shape) (m : QVol),
        (∃ v ∈ gridFinset s, 0 < m v) → (∃ v ∈ gridFinset s, ¬ 0 < m v) →
        isSignedEDF s (phiInitial s m) ∧
        ∀ v ∈ gridFinset s,
          (0 < m v → phiInitial s m v < 0) ∧ (¬ 0 < m v → 0 < phiInitial s m v)) ∧
    (∀ (s : Shape) (phi : RVol),
        (∃ v ∈ gridFinset s, 0 ≤ phi v) → (∃ v ∈ gridFinset s, phi v < 0) →
        isSignedEDF s (reinitPhi s phi) ∧
        ∀ v ∈ gridFinset s,
          (phi v < 0 → 0 < reinitPhi s phi v) ∧ (0 ≤ phi v → reinitPhi s phi v < 0)) ∧
    (∀ (s : Shape) (g : RVol) (tissue_region : QVol) (atlas_constraint : Option QVol)
        (image : RVol) (alpha beta dt : ℝ) (iteration : ℕ) (phi : RVol),
        (iteration + 1) % 3 = 0 →
        evolStep s g tissue_region atlas_constraint image alpha beta dt iteration phi =
          reinitPhi s (constrainedUpdate s g tissue_region atlas_constraint image
            alpha beta dt phi)) := by
  refine ⟨?_, ?_, ?_⟩
  · intro s m hpos hneg
    refine ⟨phiInitial_isSignedEDF hpos hneg, fun v hv => ⟨fun hm => ?_, fun hm => ?_⟩⟩
    · exact phiInitial_neg_of_pos hm hneg
    · exact phiInitial_pos_of_not hm hpos
  · intro s phi hpos hneg
    exact ⟨reinitPhi_isSignedEDF hpos hneg,
      fun v hv => ⟨fun h => reinitPhi_pos_of_neg h hpos,
        fun h => reinitPhi_neg_of_nonneg h hneg⟩⟩
  · intro s g tissue_region atlas_constraint image alpha beta dt iteration phi h
    exact evolStep_reinit h

theorem C1_amended_signed_distance_witness :
    isSignedEDF s211 (phiInitial s211 maskSingle) ∧
    phiInitial s211 maskSingle (1, 0, 0) > 0 ∧
    isSignedEDF s211 (reinitPhi s211 phiTestSign) ∧
    evolStep s211 constOneR onesQ none constOneR 1 1 1 2 constOneR =
      reinitPhi s211 (constrainedUpdate s211 constOneR onesQ none constOneR 1 1 1
        constOneR) := by
  refine ⟨(C1_amended_signed_distance.1 s211 maskSingle (by decide) (by decide)).1,
    ((C1_amended_signed_distance.1 s211 maskSingle (by decide) (by decide)).2
      (1, 0, 0) (by decide)).2 (by decide),
    (C1_amended_signed_distance.2.1 s211 phiTestSign
      ⟨(0, 0, 0), by decide, zero_le_one⟩ ⟨(1, 0, 0), by decide, neg_one_lt_zero⟩).1,
    C1_amended_signed_distance.2.2 s211 constOneR onesQ none constOneR 1 1 1 2
      constOneR (by decide)⟩

/-- C5: whenever the image/initial-mask/tissue shapes are not all identical,
or the tissue region has no positive voxel, or the initial mask has fewer
than 10 positive voxels, `validate_inputs` raises a validation error carrying
the offending shapes or counts before any evolution state exists, and the CLI
exits with code 1 with that error on stderr and writes no output mask. -/
theorem C5_validation_rejects (image initial_mask tissue_region : NDArray)
    (atlas : Option NDArray) (num_iterations : ℕ) (sigma k alpha beta dt : ℝ)
    (h : ¬ (image.shape = initial_mask.shape ∧ image.shape = tissue_region.shape) ∨
      countPosA tissue_region = 0 ∨ countPosA initial_mask < 10) :
    ∃ e, validate_inputs image initial_mask tissue_region = Except.error e ∧
      mainModel image initial_mask tissue_region atlas num_iterations
        sigma k alpha beta dt = ⟨1, none, some e⟩ := by
  cases hval : validate_inputs image initial_mask tissue_region with
  | error e =>
    refine ⟨e, rfl, ?_⟩
    unfold mainModel
    rw [hval]
  | ok u =>
    cases u
    obtain ⟨hsh, ht, hm⟩ := validate_inputs_ok hval
    rcases h with h | h | h
    · exact absurd hsh h
    · exact absurd h ht
    · exact absurd h hm

theorem C5_validation_rejects_witness :
    ¬ (ndVol211.shape = ndVol111.shape ∧ ndVol211.shape = ndVol211.shape) ∧
    ∃ e, validate_inputs ndVol211 ndVol111 ndVol211 = Except.error e ∧
      mainModel ndVol211 ndVol111 ndVol211 none 10 1.5 2 0.02 0.1 0.05 =
        ⟨1, none, some e⟩ :=
  ⟨by decide, C5_validation_rejects ndVol211 ndVol111 ndVol211 none 10 1.5 2 0.02 0.1
    0.05 (Or.inl (by decide))⟩

/-- C7: with `num_iterations = 0`, no evolution iteration runs and the
returned mask is exactly the voxelwise complement of `initial_mask > 0`
(positive precisely where the initial mask is not positive), because the
initialization gives φ negative values inside the initial mask and positive
values outside it. -/
theorem C7_zero_iterations_complement (s : Shape)
    (image initial_mask tissue_region : QVol) (atlas_constraint : Option QVol)
    (sigma k alpha beta dt : ℝ)
    (hpos : ∃ v ∈ gridFinset s, 0 < initial_mask v)
    (hneg : ∃ v ∈ gridFinset s, ¬ 0 < initial_mask v) :
    (srcGacRun s image initial_mask tissue_region atlas_constraint 0
        sigma k alpha beta dt).iters = 0 ∧
    ∀ v ∈ gridFinset s,
      (atlas_guided_morphological_geodesic_active_contour s image initial_mask
          tissue_region atlas_constraint 0 sigma k alpha beta dt v = 1 ↔
        ¬ 0 < initial_mask v) := by
  have hrun : srcGacRun s image initial_mask tissue_region atlas_constraint 0
      sigma k alpha beta dt =
      ⟨phiInitial s initial_mask, 0, StopReason.completed⟩ := rfl
  refine ⟨by rw [hrun], ?_⟩
  intro v hv
  unfold atlas_guided_morphological_geodesic_active_contour
  rw [hrun]
  dsimp only
  constructor
  · intro h1
    by_contra hm
    have hphi := phiInitial_neg_of_pos hm hneg
    rw [if_neg (not_lt.mpr hphi.le)] at h1
    simp at h1
  · intro hm
    rw [if_pos (phiInitial_pos_of_not hm hpos)]

theorem C7_zero_iterations_complement_witness :
    (srcGacRun s211 onesQ maskSingle onesQ none 0 1 1 1 0 1).iters = 0 ∧
    ∀ v ∈ gridFinset s211,
      (atlas_guided_morphological_geodesic_active_contour s211 onesQ maskSingle onesQ
          none 0 1 1 1 0 1 v = 1 ↔ ¬ 0 < maskSingle v) :=
  C7_zero_iterations_complement s211 onesQ maskSingle onesQ none 1 1 1 0 1
    (by decide) (by decide)

/-- C6: if the evolution loop terminates at a (1-indexed) iteration `i` with
`i % 3 ≠ 0` — so the terminal iteration did not end with a reinitialization —
then every positive voxel of the final level-set field lies inside the tissue
region, and in atlas-guided mode also inside the atlas mask dilated by a
ball of radius 2; only the reinitialization on iterations divisible by 3 can
break this containment. -/
theorem C6_containment_without_final_reinit (s : Shape)
    (image initial_mask tissue_region atlasM : QVol) (N : ℕ)
    (sigma k alpha beta dt : ℝ) (hN : 1 ≤ N)
    (h3a : (srcGacRun s image initial_mask tissue_region (some atlasM) N
        sigma k alpha beta dt).iters % 3 ≠ 0)
    (h3b : (srcGacRun s image initial_mask tissue_region none N
        sigma k alpha beta dt).iters % 3 ≠ 0) :
    (∀ v, 0 < (srcGacRun s image initial_mask tissue_region (some atlasM) N
        sigma k alpha beta dt).phi v → 0 < tissue_region v ∧ dilateBall2 s atlasM v) ∧
    (∀ v, 0 < (srcGacRun s image initial_mask tissue_region none N
        sigma k alpha beta dt).phi v → 0 < tissue_region v) := by
  constructor
  · have hrun : srcGacRun s image initial_mask tissue_region (some atlasM) N
        sigma k alpha beta dt =
        gacLoopAux s 5 (some (countPosQ s atlasM))
          (evolStep s (compute_brainstem_edge_function s (fun v => (image v : ℝ))
            (some (fun v => (tissue_region v : ℝ))) (some atlasM) sigma k)
            tissue_region (some atlasM) (fun v => (image v : ℝ)) alpha beta dt)
          N 0 (phiInitial s initial_mask) 0 := rfl
    obtain ⟨j, phiP, hphi, hiters⟩ := gacLoopAux_last s 5 (some (countPosQ s atlasM))
      (evolStep s (compute_brainstem_edge_function s (fun v => (image v : ℝ))
        (some (fun v => (tissue_region v : ℝ))) (some atlasM) sigma k)
        tissue_region (some atlasM) (fun v => (image v : ℝ)) alpha beta dt)
      N 0 (phiInitial s initial_mask) 0 hN
    rw [hrun] at h3a ⊢
    rw [hiters] at h3a
    intro v hv
    rw [hphi, evolStep_no_reinit h3a] at hv
    exact constrainedUpdate_pos_atlas hv
  · have hrun : srcGacRun s image initial_mask tissue_region none N
        sigma k alpha beta dt =
        gacLoopAux s 5 none
          (evolStep s (compute_brainstem_edge_function s (fun v => (image v : ℝ))
            (some (fun v => (tissue_region v : ℝ))) none sigma k)
            tissue_region none (fun v => (image v : ℝ)) alpha beta dt)
          N 0 (phiInitial s initial_mask) 0 := rfl
    obtain ⟨j, phiP, hphi, hiters⟩ := gacLoopAux_last s 5 none
      (evolStep s (compute_brainstem_edge_function s (fun v => (image v : ℝ))
        (some (fun v => (tissue_region v : ℝ))) none sigma k)
        tissue_region none (fun v => (image v : ℝ)) alpha beta dt)
      N 0 (phiInitial s initial_mask) 0 hN
    rw [hrun] at h3b ⊢
    rw [hiters] at h3b
    intro v hv
    rw [hphi, evolStep_no_reinit h3b] at hv
    exact constrainedUpdate_pos_none hv

theorem C6_containment_without_final_reinit_witness :
    (srcGacRun s211 onesQ maskSingle onesQ (some onesQ) 1 1 1 1 0 1).iters % 3 ≠ 0 ∧
    (∀ v, 0 < (srcGacRun s211 onesQ maskSingle onesQ (some onesQ) 1 1 1 1 0 1).phi v →
      0 < onesQ v ∧ dilateBall2 s211 onesQ v) ∧
    (∀ v, 0 < (srcGacRun s211 onesQ maskSingle onesQ none 1 1 1 1 0 1).phi v →
      0 < onesQ v) := by
  have h3a : (srcGacRun s211 onesQ maskSingle onesQ (some onesQ) 1 1 1 1 0 1).iters
      % 3 ≠ 0 := by
    show (1 : ℕ) % 3 ≠ 0
    decide
  have h3b : (srcGacRun s211 onesQ maskSingle onesQ none 1 1 1 1 0 1).iters
      % 3 ≠ 0 := by
    show (1 : ℕ) % 3 ≠ 0
    decide
  have hmain := C6_containment_without_final_reinit s211 onesQ maskSingle onesQ onesQ 1
    1 1 1 0 1 (le_refl 1) h3a h3b
  exact ⟨h3a, hmain.1, hmain.2⟩
